import Mathlib

/-!
Verification of the Concept Understanding Scoring Engine
(backend/app of the EXPLAIN-MY-CONFUSION repository).

Shallow embedding conventions:
* Python `str` is modelled as `List Char` (`Text` below); `len` is `List.length`,
  `str.lower()` maps `Char.toLower`, the `in` substring test is `subOf`,
  `str.strip()` is `strip_chars`, `str.split()` is `words_of`.
* Python floats are modelled as exact rationals `ℚ`; every score formula in the
  source combines decimal literals with `+ - * / min max`, which the rational
  model reproduces.
* Collaborators that the source delegates to external libraries (NLTK
  tokenization, sentence-transformers embeddings, the unknown set-iteration
  order of a Python `set`) enter as explicit parameters of the embedded
  functions, never as stubs of the scoring logic itself.
-/

namespace EMC

/-- Model of a Python `str`: a list of characters. -/
abbrev Text := List Char

/-- Python `s.lower()`. -/
def lowerText (t : Text) : Text := t.map Char.toLower

/-- Python substring test `needle in hay` (contiguous substring, `""` always matches). -/
def subOf (needle : Text) : Text → Bool
  | [] => needle.isEmpty
  | c :: rest => List.isPrefixOf needle (c :: rest) || subOf needle rest

/-- Python `s.strip()`: drop whitespace from both ends. -/
def strip_chars (t : Text) : Text :=
  ((t.dropWhile Char.isWhitespace).reverse.dropWhile Char.isWhitespace).reverse

/-- Python `s.split()`: split on whitespace runs, dropping empty fragments. -/
def words_of (t : Text) : List Text :=
  (t.splitOnP Char.isWhitespace).filter (fun w => !w.isEmpty)

/-- Embeds the `ConceptDefinition` dataclass of
`backend/app/knowledge/cs_concepts.py`. -/
structure ConceptDefinition where
  name : Text
  description : Text
  key_terms : List Text
  prerequisites : List Text
  applications : List Text
  common_misconceptions : List Text
  difficulty_level : ℤ
  deriving DecidableEq

/-- Embeds `get_concept_by_name` of `cs_concepts.py`: normalize the query
(lower-case, spaces and hyphens to underscores) and look it up in the catalog,
modelled as an association list standing for the `CS_CONCEPTS` dict. -/
def normalize_key (name : Text) : Text :=
  (lowerText name).map (fun c => if c = ' ' then '_' else if c = '-' then '_' else c)

def get_concept_by_name (catalog : List (Text × ConceptDefinition)) (name : Text) :
    Option ConceptDefinition :=
  (catalog.find? (fun kv => kv.1 = normalize_key name)).map (fun kv => kv.2)

/-- Result shape of `ConceptAnalyzer._analyze_term_coverage`
(`backend/app/nlp/concept_analyzer.py`, lines 78-100). -/
structure TermCoverage where
  score : ℚ
  matched_terms : List Text
  missing_terms : List Text
  total_key_terms : ℕ
  deriving DecidableEq

/-- Embeds `ConceptAnalyzer._analyze_term_coverage`.  The Python loop appends a
lowered key term to `matched_terms` (once, thanks to the `break`) whenever some
lowered extracted term contains it or is contained in it: that loop is the
`filter` below.  The returned `matched_terms` is `list(set(matched_terms))`,
an enumeration of the distinct matched terms, modelled as `List.dedup`
(set-equal to the Python value); the score divides the cardinality of that set
by the raw length of the lowered key-term list. -/
def analyze_term_coverage (extracted_terms : List Text) (cd : ConceptDefinition) :
    TermCoverage :=
  let ktl := cd.key_terms.map lowerText
  let etl := extracted_terms.map lowerText
  let matched := ktl.filter (fun term => etl.any (fun e => subOf term e || subOf e term))
  { score := if ktl = [] then 0 else (matched.dedup.length : ℚ) / (ktl.length : ℚ)
    matched_terms := matched.dedup
    missing_terms := ktl.filter (fun t => !(decide (t ∈ matched)))
    total_key_terms := ktl.length }

/-- Indicator lexicons of `ConceptAnalyzer.__init__` (`concept_analyzer.py`). -/
def understanding_strong : List Text :=
  (["efficiently", "optimal", "because", "therefore", "results in", "leads to",
    "causes"]).map String.toList

def understanding_medium : List Text :=
  (["works by", "functions by", "operates by", "used for", "helps to",
    "allows"]).map String.toList

def understanding_weak : List Text :=
  (["is", "are", "has", "have", "contains", "includes"]).map String.toList

def misconception_indicators : List Text :=
  (["always", "never", "impossible", "cannot", "must be", "has to be",
    "only way", "best way", "worst way", "fastest", "slowest"]).map String.toList

def uncertainty_indicators : List Text :=
  (["i think", "maybe", "probably", "might be", "could be", "seems like",
    "i believe", "i guess", "not sure", "uncertain"]).map String.toList

def causal_indicators : List Text :=
  (["because", "therefore", "since", "due to"]).map String.toList

def example_indicators : List Text :=
  (["example", "for instance", "such as"]).map String.toList

/-- Result shape of `ConceptAnalyzer._analyze_understanding_quality`. -/
structure Quality where
  score : ℚ
  has_causal_reasoning : Bool
  has_examples : Bool
  deriving DecidableEq

/-- Embeds `ConceptAnalyzer._analyze_understanding_quality`
(`concept_analyzer.py`, lines 102-133).  The Python loop keeps a running
`max(quality_score, level_score)` over every matched indicator of every tier;
since the tier scores are ordered 0.8 > 0.6 > 0.4 > 0, that running maximum is
extensionally the conditional chain below (strongest matched tier, 0 when no
tier matches).  Bonuses of 0.1 for a mentioned application and for a mentioned
prerequisite are added afterwards and the total is clamped with
`min(..., 1.0)`, written as its conditional expansion. -/
def analyze_understanding_quality (text : Text) (cd : ConceptDefinition) : Quality :=
  let tl := lowerText text
  let tier : ℚ :=
    if understanding_strong.any (fun i => subOf i tl) then 0.8
    else if understanding_medium.any (fun i => subOf i tl) then 0.6
    else if understanding_weak.any (fun i => subOf i tl) then 0.4
    else 0
  let withApps := tier +
    (if cd.applications.any (fun a => subOf (lowerText a) tl) then 0.1 else 0)
  let withPrereqs := withApps +
    (if cd.prerequisites.any
        (fun p => subOf ((lowerText p).map (fun c => if c = '_' then ' ' else c)) tl)
      then 0.1 else 0)
  { score := if withPrereqs ≤ 1 then withPrereqs else 1
    has_causal_reasoning := causal_indicators.any (fun i => subOf i tl)
    has_examples := example_indicators.any (fun i => subOf i tl) }

/-- Result shape of `ConceptAnalyzer._analyze_misconceptions`. -/
structure Misconceptions where
  severity : ℚ
  misconceptions_found : List Text
  uncertainty_level : ℕ
  deriving DecidableEq

/-- Embeds `ConceptAnalyzer._analyze_misconceptions` (`concept_analyzer.py`,
lines 135-167): +0.1 per generic absolutist indicator present, +0.3 per known
misconception whose lowered description has some word longer than 3 characters
occurring in the text, +0.2 when more than two uncertainty markers occur; the
running sum is returned as `min(severity, 1.0)`. -/
def analyze_misconceptions (text : Text) (cd : ConceptDefinition) : Misconceptions :=
  let tl := lowerText text
  let generic := misconception_indicators.filter (fun i => subOf i tl)
  let specific := cd.common_misconceptions.filter
    (fun m => (words_of (lowerText m)).any (fun w => decide (3 < w.length) && subOf w tl))
  let uncertainty_count := (uncertainty_indicators.filter (fun i => subOf i tl)).length
  let total : ℚ := 0.1 * generic.length + 0.3 * specific.length +
    (if 2 < uncertainty_count then 0.2 else 0)
  { severity := if total ≤ 1 then total else 1
    misconceptions_found := generic ++ specific ++
      (if 2 < uncertainty_count then [("high_uncertainty").toList] else [])
    uncertainty_level := uncertainty_count }

/-- Embeds `ConceptAnalyzer._calculate_confidence` (`concept_analyzer.py`,
lines 213-232): base 0.7, +0.1 for causal reasoning, +0.1 for examples,
minus `severity * 0.3`, minus 0.2 when more than one uncertainty marker,
then `max(0.1, min(1.0, ...))`, written as its conditional expansion. -/
def calculate_confidence (uq : Quality) (ma : Misconceptions) : ℚ :=
  let raw : ℚ :=
    0.7 + (if uq.has_causal_reasoning then 0.1 else 0)
      + (if uq.has_examples then 0.1 else 0)
      - ma.severity * 0.3
      - (if 1 < ma.uncertainty_level then 0.2 else 0)
  let capped : ℚ := if raw ≤ 1 then raw else 1
  if capped ≤ 0.1 then 0.1 else capped

/-- Per-concept analysis record returned by
`ConceptAnalyzer.analyze_concept_understanding`.  The `completeness` and
`structure_analysis` entries of the Python dict are derived from the
`TextPreprocessor` collaborator (absent from the analyzed sources) and no claim
concerns them, so they are not carried. -/
structure Analysis where
  concept_name : Text
  coverage_score : ℚ
  correctness_score : ℚ
  confidence_score : ℚ
  term_coverage : TermCoverage
  understanding_quality : Quality
  misconceptions : Misconceptions
  deriving DecidableEq

/-- Embeds `ConceptAnalyzer._create_default_analysis` (`concept_analyzer.py`,
lines 234-248): the fixed degraded record used when the concept is not in the
catalog. -/
def create_default_analysis (concept_name : Text) : Analysis :=
  { concept_name := concept_name
    coverage_score := 0.5
    correctness_score := 0.5
    confidence_score := 0.3
    term_coverage := { score := 0.5, matched_terms := [], missing_terms := [],
                       total_key_terms := 0 }
    understanding_quality := { score := 0.5, has_causal_reasoning := false,
                               has_examples := false }
    misconceptions := { severity := 0, misconceptions_found := [],
                        uncertainty_level := 0 } }

/-- Embeds `ConceptAnalyzer.analyze_concept_understanding`
(`concept_analyzer.py`, lines 41-76).  The extracted key terms and technical
phrases come from the `TextPreprocessor` collaborator; their concatenation is
the `extracted_terms` parameter.  When the catalog lookup fails the fixed
default record is returned; otherwise
`correctness_score = understanding_quality.score * (1 - misconceptions.severity)`
and `coverage_score` is the term-coverage score. -/
def analyze_concept_understanding (catalog : List (Text × ConceptDefinition))
    (text target_concept : Text) (extracted_terms : List Text) : Analysis :=
  match get_concept_by_name catalog target_concept with
  | none => create_default_analysis target_concept
  | some cd =>
    let tc := analyze_term_coverage extracted_terms cd
    let uq := analyze_understanding_quality text cd
    let ma := analyze_misconceptions text cd
    { concept_name := cd.name
      coverage_score := tc.score
      correctness_score := uq.score * (1 - ma.severity)
      confidence_score := calculate_confidence uq ma
      term_coverage := tc
      understanding_quality := uq
      misconceptions := ma }

/-- The three classification labels of `AnalysisService.analyze_text`. -/
inductive ConceptLabel where
  | understood
  | misunderstood
  | missing
  deriving DecidableEq

/-- Embeds the main-concept categorization branch of
`AnalysisService.analyze_text` (`backend/app/api/deps.py`, lines 52-72):
`understood` when `correctness_score >= 0.7 and coverage_score >= 0.6`,
else `misunderstood` when `misconceptions.severity > 0.3`, else `missing`. -/
def categorize_main_concept (a : Analysis) : ConceptLabel :=
  if 0.7 ≤ a.correctness_score ∧ 0.6 ≤ a.coverage_score then .understood
  else if 0.3 < a.misconceptions.severity then .misunderstood
  else .missing

/-- Request model `AnalysisRequest` of `backend/app/models/schemas.py`:
`explanation` with pydantic bounds `min_length=10, max_length=5000`, `topic`
with `min_length=2, max_length=100`, optional `subject` with `max_length=50`. -/
structure AnalysisRequest where
  explanation : Text
  topic : Text
  subject : Option Text
  deriving DecidableEq

/-- Pydantic field validation of `AnalysisRequest` (`schemas.py`, lines 8-12). -/
def pydantic_valid (r : AnalysisRequest) : Bool :=
  decide (10 ≤ r.explanation.length) && decide (r.explanation.length ≤ 5000) &&
  decide (2 ≤ r.topic.length) && decide (r.topic.length ≤ 100) &&
  r.subject.all (fun s => decide (s.length ≤ 50))

/-- Outcome of the `/analyze` route: either rejected with an HTTP error status
before any scoring runs, or handed to the analysis engine. -/
inductive RouteOutcome where
  | validationError (status : ℕ)
  | analyzed
  deriving DecidableEq

/-- Embeds the validation path of `analyze_explanation`
(`backend/app/api/routes/analyze.py`, lines 18-38): FastAPI applies the
pydantic field constraints before the handler body runs (a 422 validation
error); the handler then rejects a whitespace-only explanation and an
explanation longer than 5000 characters with status 400, and only afterwards
invokes the analysis engine. -/
def analyze_route (r : AnalysisRequest) : RouteOutcome :=
  if pydantic_valid r then
    if strip_chars r.explanation = [] then .validationError 400
    else if 5000 < r.explanation.length then .validationError 400
    else .analyzed
  else .validationError 422

/-- Embeds `EmbeddingService.compute_similarity`
(`backend/app/nlp/embeddings.py`, lines 79-84 guard): when either input strips
to the empty string the result is 0.0 and the embedding model is not invoked.
The model itself is the `model_sim` parameter; the boolean records whether it
was invoked. -/
def compute_similarity (model_sim : Text → Text → ℚ) (text1 text2 : Text) : ℚ × Bool :=
  if strip_chars text1 = [] ∨ strip_chars text2 = [] then (0, false)
  else (model_sim text1 text2, true)

/-- The intermediate sets of `WikipediaKnowledgeBase.compare_concepts`
(`backend/app/knowledge/wikipedia_kb.py`, lines 221-227):
`correct = student_set & reference_set`, `missing = reference_set - student_set`,
`extra = student_set - reference_set`. -/
def correct_set (student_concepts reference_concepts : List Text) : Finset Text :=
  student_concepts.toFinset ∩ reference_concepts.toFinset

def missing_set (student_concepts reference_concepts : List Text) : Finset Text :=
  reference_concepts.toFinset \ student_concepts.toFinset

def extra_set (student_concepts reference_concepts : List Text) : Finset Text :=
  student_concepts.toFinset \ reference_concepts.toFinset

/-- Comparison record returned by `WikipediaKnowledgeBase.compare_concepts`. -/
structure Comparison where
  correct_concepts : List Text
  missing_concepts : List Text
  extra_concepts : List Text
  similarity_score : ℚ
  sim_invoked : Bool
  deriving DecidableEq

/-- An enumeration oracle modelling Python `list(s)` on a `set`: it must list
exactly the elements of the set, each once, but in an order the language leaves
unspecified (CPython string hashing is even randomized per process). -/
def ValidEnum (enum : Finset Text → List Text) : Prop :=
  ∀ s : Finset Text, (enum s).toFinset = s ∧ (enum s).Nodup

/-- Embeds `WikipediaKnowledgeBase.compare_concepts` (`wikipedia_kb.py`, lines
203-246).  The student and reference concept lists are the outputs of the
NLTK-based `extract_key_concepts` collaborator applied to the student text and
to `summary + content[:2000]`, passed here as parameters.  Each displayed list
is `list(<set>)[:10]`; `enum` models the unspecified `list(set)` order.  The
similarity score calls the sentence-transformers model once, guarded exactly as
in the source: both strings must strip to non-empty. -/
def compare_concepts (enum : Finset Text → List Text) (model_sim : Text → Text → ℚ)
    (student_concepts reference_concepts : List Text)
    (student_text summary : Text) : Comparison :=
  let correct := enum (correct_set student_concepts reference_concepts)
  let missing := enum (missing_set student_concepts reference_concepts)
  let extra := enum (extra_set student_concepts reference_concepts)
  let sim : ℚ × Bool :=
    if ¬(strip_chars student_text = []) ∧ ¬(strip_chars summary = []) then
      (model_sim student_text summary, true)
    else (0, false)
  { correct_concepts := correct.take 10
    missing_concepts := missing.take 10
    extra_concepts := extra.take 10
    similarity_score := sim.1
    sim_invoked := sim.2 }

/-- Position of the first occurrence of a term in a list. -/
def first_idx (l : List Text) (t : Text) : ℕ :=
  l.findIdx (fun x => decide (x = t))

/-- Counter items of `RealNLPProcessor.extract_key_terms`
(`backend/app/nlp/preprocess.py`, lines 144-171): one triple per distinct term
of the combined term list, pairing it with its frequency and the position of
its first occurrence.  `Counter(all_terms).items()` enumerates the same set of
(term, count) pairs; the enumeration order is immaterial here because the sort
relation below is linear on these triples (first-occurrence positions are
pairwise distinct). -/
def counter_items (l : List Text) : List (Text × ℕ × ℕ) :=
  l.dedup.map (fun t => (t, l.count t, first_idx l t))

/-- Sort relation embedding the Python stable
`sorted(..., key=lambda x: x[1], reverse=True)`: larger counts first, and among
equal counts the earlier first occurrence first.  Python guarantees stability
under `reverse=True`, and on items with pairwise-distinct first-occurrence
positions the stable descending-count sort output is the unique permutation
sorted by this linear relation. -/
def rank_le (a b : Text × ℕ × ℕ) : Prop :=
  b.2.1 < a.2.1 ∨ (a.2.1 = b.2.1 ∧ a.2.2 ≤ b.2.2)

instance : DecidableRel rank_le := fun a b => by
  unfold rank_le; exact inferInstance

instance : IsTotal (Text × ℕ × ℕ) rank_le :=
  ⟨fun a b => by unfold rank_le; omega⟩

instance : IsTrans (Text × ℕ × ℕ) rank_le :=
  ⟨fun a b c hab hbc => by unfold rank_le at *; omega⟩

/-- Embeds `RealNLPProcessor.extract_key_terms` (`preprocess.py`, lines
144-171), parametrized by the combined term list
`lemmatized + noun_phrases + capitalized` that the NLTK collaborators produce:
count frequencies, keep terms longer than 2 characters (the `count > 0` test of
the source is vacuous), sort by descending frequency with ties broken by first
occurrence, return the first 20 terms. -/
def extract_key_terms (all_terms : List Text) : List Text :=
  ((((counter_items all_terms).filter (fun it => decide (2 < it.1.length))).insertionSort
      rank_le).take 20).map (fun it => it.1)

/-- Concrete catalog entry used to exercise the analyzer on closed inputs
(shape of the `binary_search` entry of `CS_CONCEPTS`, trimmed). -/
def sample_concept : ConceptDefinition :=
  { name := ("Binary Search").toList
    description := []
    key_terms := [("sorted").toList, ("divide").toList]
    prerequisites := []
    applications := []
    common_misconceptions := []
    difficulty_level := 2 }

def sample_catalog : List (Text × ConceptDefinition) :=
  [(("binary_search").toList, sample_concept)]

/-- Concrete analysis record with high correctness and coverage but severity
above the misconception threshold, exercising the branch priority. -/
def sample_analysis : Analysis :=
  { concept_name := []
    coverage_score := 0.7
    correctness_score := 0.8
    confidence_score := 0.5
    term_coverage := { score := 0.7, matched_terms := [], missing_terms := [],
                       total_key_terms := 0 }
    understanding_quality := { score := 0.8, has_causal_reasoning := true,
                               has_examples := false }
    misconceptions := { severity := 0.9, misconceptions_found := [],
                        uncertainty_level := 0 } }

/-- Concrete student and reference concept lists (frequency-ranked, as
`extract_key_concepts` would return them). -/
def student_terms : List Text := [("alpha").toList, ("beta").toList]

def reference_terms : List Text := [("beta").toList, ("alpha").toList]

/-- A computable admissible `list(set)` enumeration: list the elements in
lexicographic order. -/
def lex_enum : Finset Text → List Text := fun s => s.sort (· ≤ ·)

/-- A second concrete admissible `list(set)` enumeration: on one particular
two-element set it lists the elements against the student frequency ranking,
elsewhere it sorts.  Any such function is a possible behaviour of Python
`list` on a `set`, whose iteration order is unspecified. -/

def bad_enum : Finset Text → List Text := fun s =>
  if s = ({("alpha").toList, ("beta").toList} : Finset Text) then
    [("beta").toList, ("alpha").toList]
  else lex_enum s

/-!
Theorems.  One theorem per claim, preceded by helper lemmas where needed.
-/

/-- C3: for every text (represented by its extracted terms) and every knowledge
record, the coverage score is the number of matched key terms divided by the
total number of key terms (0 when the key-term list is empty), it lies in
[0, 1], and `matched_terms` and `missing_terms` partition the lowered key-term
set: no term is in both, and a term is in one of them exactly when it is a
lowered key term of the record. -/
theorem term_coverage_partition (extracted_terms : List Text) (cd : ConceptDefinition) :
    0 ≤ (analyze_term_coverage extracted_terms cd).score ∧
    (analyze_term_coverage extracted_terms cd).score ≤ 1 ∧
    (∀ t, t ∈ (analyze_term_coverage extracted_terms cd).matched_terms →
      t ∉ (analyze_term_coverage extracted_terms cd).missing_terms) ∧
    (∀ t, (t ∈ (analyze_term_coverage extracted_terms cd).matched_terms ∨
           t ∈ (analyze_term_coverage extracted_terms cd).missing_terms) ↔
      t ∈ cd.key_terms.map lowerText) ∧
    (analyze_term_coverage extracted_terms cd).score =
      (if cd.key_terms.map lowerText = [] then 0
       else ((analyze_term_coverage extracted_terms cd).matched_terms.length : ℚ) /
         ((analyze_term_coverage extracted_terms cd).total_key_terms : ℚ)) := by
  dsimp only [analyze_term_coverage]
  set ktl := cd.key_terms.map lowerText with hktl
  set etl := extracted_terms.map lowerText with hetl
  set matched := ktl.filter (fun term => etl.any (fun e => subOf term e || subOf e term))
    with hmatched
  have hsub : matched.dedup.length ≤ ktl.length :=
    le_trans (List.Sublist.length_le (List.dedup_sublist matched))
      (List.Sublist.length_le (List.filter_sublist ktl))
  refine ⟨?_, ?_, ?_, ?_, rfl⟩
  · split_ifs with h
    · exact le_refl 0
    · positivity
  · split_ifs with h
    · norm_num
    · have hpos : (0 : ℚ) < (ktl.length : ℚ) := by
        exact_mod_cast List.length_pos.mpr h
      rw [div_le_one hpos]
      exact_mod_cast hsub
  · intro t ht
    have ht' : t ∈ matched := List.mem_dedup.mp ht
    simp only [List.mem_filter, Bool.not_eq_true', decide_eq_false_iff_not]
    intro hc
    exact hc.2 ht'
  · intro t
    constructor
    · rintro (h | h)
      · exact (List.mem_filter.mp (List.mem_dedup.mp h)).1
      · exact (List.mem_filter.mp h).1
    · intro h
      by_cases hm : t ∈ matched
      · exact Or.inl (List.mem_dedup.mpr hm)
      · refine Or.inr (List.mem_filter.mpr ⟨h, ?_⟩)
        simp only [Bool.not_eq_true', decide_eq_false_iff_not]
        exact hm

/-- C2: for every text and every knowledge record resolved from the catalog,
the correctness score equals the understanding-quality score times
(1 - misconception severity); consequently, whenever the severity is positive
and the quality score is positive, the correctness score is strictly below the
quality score alone. -/
theorem correctness_multiplicative_discount (catalog : List (Text × ConceptDefinition))
    (text target_concept : Text) (extracted_terms : List Text) (cd : ConceptDefinition)
    (h : get_concept_by_name catalog target_concept = some cd) :
    (analyze_concept_understanding catalog text target_concept extracted_terms).correctness_score
      = (analyze_understanding_quality text cd).score *
        (1 - (analyze_misconceptions text cd).severity) ∧
    (0 < (analyze_misconceptions text cd).severity →
      0 < (analyze_understanding_quality text cd).score →
      (analyze_concept_understanding catalog text target_concept
          extracted_terms).correctness_score
        < (analyze_understanding_quality text cd).score) := by
  have heq : (analyze_concept_understanding catalog text target_concept
      extracted_terms).correctness_score
      = (analyze_understanding_quality text cd).score *
        (1 - (analyze_misconceptions text cd).severity) := by
    unfold analyze_concept_understanding
    rw [h]
  refine ⟨heq, fun hs hq => ?_⟩
  rw [heq]
  nlinarith [mul_pos hq hs]

/-- C2 witness: the text "always because" triggers the absolutist indicator
"always" (severity 0.1 > 0) and the strong indicator "because" (quality
0.8 > 0), and the resulting correctness score 0.72 is strictly below 0.8. -/
theorem correctness_multiplicative_discount_witness :
    0 < (analyze_misconceptions ("always because").toList sample_concept).severity ∧
    0 < (analyze_understanding_quality ("always because").toList sample_concept).score ∧
    (analyze_concept_understanding sample_catalog ("always because").toList
        ("Binary Search").toList []).correctness_score
      < (analyze_understanding_quality ("always because").toList sample_concept).score := by
  refine ⟨by with_unfolding_all decide, by with_unfolding_all decide, ?_⟩
  exact (correctness_multiplicative_discount sample_catalog ("always because").toList
    ("Binary Search").toList [] sample_concept rfl).2
    (by with_unfolding_all decide) (by with_unfolding_all decide)

/-- Accumulated misconception severity is never negative: it is the minimum of
a sum of non-negative contributions and 1. -/
theorem severity_nonneg (text : Text) (cd : ConceptDefinition) :
    0 ≤ (analyze_misconceptions text cd).severity := by
  dsimp only [analyze_misconceptions]
  split_ifs <;> positivity

/-- C5: for every text and knowledge record, the confidence score is clamped
to [0.1, 1.0]; it is never 0 and never exactly 1 (indeed it never exceeds
0.9, since the base 0.7 plus the two possible 0.1 bonuses is the largest
pre-clamp value and severity only subtracts). -/
theorem confidence_bounds (text : Text) (cd : ConceptDefinition) :
    0.1 ≤ calculate_confidence (analyze_understanding_quality text cd)
        (analyze_misconceptions text cd) ∧
    calculate_confidence (analyze_understanding_quality text cd)
        (analyze_misconceptions text cd) ≤ 1 ∧
    calculate_confidence (analyze_understanding_quality text cd)
        (analyze_misconceptions text cd) ≠ 0 ∧
    calculate_confidence (analyze_understanding_quality text cd)
        (analyze_misconceptions text cd) < 1 := by
  have hs := severity_nonneg text cd
  set uq := analyze_understanding_quality text cd
  set ma := analyze_misconceptions text cd
  dsimp only [calculate_confidence]
  set raw : ℚ :=
    0.7 + (if uq.has_causal_reasoning then 0.1 else 0)
      + (if uq.has_examples then 0.1 else 0)
      - ma.severity * 0.3
      - (if 1 < ma.uncertainty_level then 0.2 else 0) with hraw
  have hraw_le : raw ≤ 0.9 := by
    rw [hraw]
    have hsev : 0 ≤ ma.severity * 0.3 := by positivity
    split_ifs <;> linarith
  set capped : ℚ := if raw ≤ 1 then raw else 1 with hcapped
  have hcap_le : capped ≤ 0.9 := by
    rw [hcapped]
    split_ifs with h
    · exact hraw_le
    · exact absurd (hraw_le.trans (by norm_num)) h
  have hfin_ge : (0.1 : ℚ) ≤ (if capped ≤ 0.1 then (0.1 : ℚ) else capped) := by
    split_ifs with h
    · exact le_refl _
    · linarith [not_le.mp h]
  have hfin_le : (if capped ≤ 0.1 then (0.1 : ℚ) else capped) ≤ 0.9 := by
    split_ifs with h
    · norm_num
    · exact hcap_le
  refine ⟨hfin_ge, by linarith, ?_, by linarith⟩
  intro h0
  rw [h0] at hfin_ge
  norm_num at hfin_ge

/-- C1: classification follows the strict three-way priority order of the
source branch: `understood` whenever correctness is at least 0.7 and coverage
at least 0.6 (regardless of the severity value); otherwise `misunderstood`
whenever severity exceeds 0.3; otherwise `missing`. -/
theorem classification_priority (a : Analysis) :
    (0.7 ≤ a.correctness_score → 0.6 ≤ a.coverage_score →
      categorize_main_concept a = ConceptLabel.understood) ∧
    (¬(0.7 ≤ a.correctness_score ∧ 0.6 ≤ a.coverage_score) →
      0.3 < a.misconceptions.severity →
      categorize_main_concept a = ConceptLabel.misunderstood) ∧
    (¬(0.7 ≤ a.correctness_score ∧ 0.6 ≤ a.coverage_score) →
      ¬(0.3 < a.misconceptions.severity) →
      categorize_main_concept a = ConceptLabel.missing) := by
  unfold categorize_main_concept
  refine ⟨fun h1 h2 => ?_, fun h1 h2 => ?_, fun h1 h2 => ?_⟩ <;>
    split_ifs <;> first | rfl | tauto

/-- C1 witness: a concrete record with correctness 0.8, coverage 0.7 and
severity 0.9 is classified `understood` even though its severity exceeds 0.3:
the first branch wins. -/
theorem classification_priority_witness :
    categorize_main_concept sample_analysis = ConceptLabel.understood ∧
    0.3 < sample_analysis.misconceptions.severity := by
  refine ⟨(classification_priority sample_analysis).1 ?_ ?_, ?_⟩ <;>
    with_unfolding_all decide

/-- C7: in static mode, when the target concept is not found in the catalog
the analysis does not fail: it returns the fixed degraded default record, with
midpoint coverage and correctness 0.5, empty matched and missing term sets,
and the low confidence 0.3 (strictly below the midpoint) flagging the result
as degraded. -/
theorem default_analysis_on_unknown_concept (catalog : List (Text × ConceptDefinition))
    (text target_concept : Text) (extracted_terms : List Text)
    (h : get_concept_by_name catalog target_concept = none) :
    analyze_concept_understanding catalog text target_concept extracted_terms
      = create_default_analysis target_concept ∧
    (analyze_concept_understanding catalog text target_concept
      extracted_terms).coverage_score = 0.5 ∧
    (analyze_concept_understanding catalog text target_concept
      extracted_terms).correctness_score = 0.5 ∧
    (analyze_concept_understanding catalog text target_concept
      extracted_terms).confidence_score = 0.3 ∧
    (analyze_concept_understanding catalog text target_concept
      extracted_terms).term_coverage.matched_terms = [] ∧
    (analyze_concept_understanding catalog text target_concept
      extracted_terms).term_coverage.missing_terms = [] ∧
    (analyze_concept_understanding catalog text target_concept
      extracted_terms).confidence_score < 0.5 := by
  have heq : analyze_concept_understanding catalog text target_concept extracted_terms
      = create_default_analysis target_concept := by
    unfold analyze_concept_understanding
    rw [h]
  rw [heq]
  refine ⟨rfl, rfl, rfl, rfl, rfl, rfl, by norm_num [create_default_analysis]⟩

/-- C7 witness: the empty catalog resolves no concept, so analyzing the
concrete name "mystery" yields exactly the default degraded record. -/
theorem default_analysis_on_unknown_concept_witness :
    analyze_concept_understanding [] [] ("mystery").toList []
      = create_default_analysis ("mystery").toList :=
  (default_analysis_on_unknown_concept [] [] ("mystery").toList [] rfl).1

/-- C10: the degraded default record produced for an unknown concept is always
classified `missing`: its correctness 0.5 falls short of the 0.7 threshold and
its severity 0 does not exceed 0.3. -/
theorem default_analysis_classified_missing (catalog : List (Text × ConceptDefinition))
    (text target_concept : Text) (extracted_terms : List Text)
    (h : get_concept_by_name catalog target_concept = none) :
    categorize_main_concept
      (analyze_concept_understanding catalog text target_concept extracted_terms)
      = ConceptLabel.missing := by
  have heq : analyze_concept_understanding catalog text target_concept extracted_terms
      = create_default_analysis target_concept := by
    unfold analyze_concept_understanding
    rw [h]
  rw [heq]
  have h1 : ¬((0.7 : ℚ) ≤ (create_default_analysis target_concept).correctness_score ∧
      (0.6 : ℚ) ≤ (create_default_analysis target_concept).coverage_score) := by
    rintro ⟨h1, -⟩
    norm_num [create_default_analysis] at h1
  have h2 : ¬((0.3 : ℚ) < (create_default_analysis target_concept).misconceptions.severity) := by
    norm_num [create_default_analysis]
  unfold categorize_main_concept
  rw [if_neg h1, if_neg h2]

/-- C10 witness: with the empty catalog the concrete unknown concept "puzzle"
is classified `missing`. -/
theorem default_analysis_classified_missing_witness :
    categorize_main_concept (analyze_concept_understanding [] [] ("puzzle").toList [])
      = ConceptLabel.missing :=
  default_analysis_classified_missing [] [] ("puzzle").toList [] rfl

/-- C6 counterexample: the claim says every text of length 1 through 5000 with
a non-empty concept identifier is accepted, but the request model requires at
least 10 characters: the 5-character explanation "hello" with the non-empty
topic "graphs" is rejected by validation, not analyzed. -/
theorem request_acceptance_counterexample :
    (1 ≤ (("hello").toList : Text).length ∧ (("hello").toList : Text).length ≤ 5000 ∧
      (("graphs").toList : Text) ≠ []) ∧
    analyze_route (AnalysisRequest.mk ("hello").toList ("graphs").toList none)
      ≠ RouteOutcome.analyzed := by
  with_unfolding_all decide

/-- Unfolds the pydantic field constraints of `AnalysisRequest` into their
arithmetic form. -/
theorem pydantic_valid_iff (r : AnalysisRequest) :
    pydantic_valid r = true ↔
      (10 ≤ r.explanation.length ∧ r.explanation.length ≤ 5000 ∧
       2 ≤ r.topic.length ∧ r.topic.length ≤ 100 ∧
       r.subject.all (fun s => decide (s.length ≤ 50)) = true) := by
  unfold pydantic_valid
  simp [Bool.and_eq_true, decide_eq_true_eq, and_assoc]

/-- C6 amended: a request reaches the analysis engine exactly when its
explanation is 10 to 5000 characters long and not whitespace-only, its topic
is 2 to 100 characters, and its optional subject is at most 50 characters;
anything else — in particular an empty or over-5000-character explanation —
is rejected with a validation error before any scoring takes place. -/
theorem request_acceptance_spec (r : AnalysisRequest) :
    analyze_route r = RouteOutcome.analyzed ↔
      (10 ≤ r.explanation.length ∧ r.explanation.length ≤ 5000 ∧
       strip_chars r.explanation ≠ [] ∧
       2 ≤ r.topic.length ∧ r.topic.length ≤ 100 ∧
       r.subject.all (fun s => decide (s.length ≤ 50)) = true) := by
  have hiff := pydantic_valid_iff r
  unfold analyze_route
  by_cases hp : pydantic_valid r = true
  · rw [if_pos hp]
    have hcon := hiff.mp hp
    by_cases hs : strip_chars r.explanation = []
    · rw [if_pos hs]
      constructor
      · intro h
        exact absurd h (by intro hh; cases hh)
      · rintro ⟨-, -, hne, -⟩
        exact absurd hs hne
    · rw [if_neg hs]
      have hnl : ¬ 5000 < r.explanation.length := by omega
      rw [if_neg hnl]
      constructor
      · intro _
        exact ⟨hcon.1, hcon.2.1, hs, hcon.2.2.1, hcon.2.2.2.1, hcon.2.2.2.2⟩
      · intro _
        rfl
  · rw [if_neg hp]
    constructor
    · intro h
      exact absurd h (by intro hh; cases hh)
    · rintro ⟨h1, h2, -, h4, h5, h6⟩
      exact absurd (hiff.mpr ⟨h1, h2, h4, h5, h6⟩) hp

/-- Stripping a string that consists only of whitespace yields the empty
string. -/
theorem strip_chars_blank {t : Text} (h : t.all Char.isWhitespace = true) :
    strip_chars t = [] := by
  unfold strip_chars
  have hd : t.dropWhile Char.isWhitespace = [] := by
    rw [List.dropWhile_eq_nil_iff]
    intro x hx
    exact List.all_eq_true.mp h x hx
  rw [hd]
  rfl

/-- C9: whenever the student text or the reference summary is empty or
whitespace-only, the similarity score is 0.0 and the embedding model is not
invoked — both in `EmbeddingService.compute_similarity` and in the similarity
branch of `WikipediaKnowledgeBase.compare_concepts`. -/
theorem similarity_zero_on_blank (model_sim : Text → Text → ℚ)
    (enum : Finset Text → List Text) (student_concepts reference_concepts : List Text)
    (student_text summary : Text)
    (h : student_text.all Char.isWhitespace = true ∨ summary.all Char.isWhitespace = true) :
    compute_similarity model_sim student_text summary = (0, false) ∧
    (compare_concepts enum model_sim student_concepts reference_concepts
      student_text summary).similarity_score = 0 ∧
    (compare_concepts enum model_sim student_concepts reference_concepts
      student_text summary).sim_invoked = false := by
  have hstrip : strip_chars student_text = [] ∨ strip_chars summary = [] :=
    h.imp strip_chars_blank strip_chars_blank
  unfold compute_similarity compare_concepts
  rcases hstrip with h1 | h1 <;> simp [h1]

/-- C9 witness: with a whitespace-only student text and the constant-1 model,
the guard returns similarity 0 without invoking the model. -/
theorem similarity_zero_on_blank_witness :
    compute_similarity (fun _ _ => 1) ("  ").toList ("abc").toList = (0, false) :=
  (similarity_zero_on_blank (fun _ _ => 1) lex_enum [] [] ("  ").toList ("abc").toList
    (Or.inl (by decide))).1

/-- Sorting a finset is an admissible `list(set)` enumeration. -/
theorem valid_lex_enum : ValidEnum lex_enum :=
  fun s => ⟨Finset.sort_toFinset _ s, Finset.sort_nodup _ s⟩

/-- C4 amended: in documentary mode the derived sets satisfy
`correct = student ∩ reference`, `missing = reference − student`,
`extra = student − reference`; they are pairwise disjoint and partition the
union of the student and reference concept sets; each displayed list is capped
to 10 items drawn from its set — but those items appear in the unspecified
enumeration order of the underlying Python set, not in the frequency order of
key-term extraction. -/
theorem concept_comparison_spec (enum : Finset Text → List Text) (henum : ValidEnum enum)
    (model_sim : Text → Text → ℚ) (student_concepts reference_concepts : List Text)
    (student_text summary : Text) :
    Disjoint (correct_set student_concepts reference_concepts)
      (missing_set student_concepts reference_concepts) ∧
    Disjoint (correct_set student_concepts reference_concepts)
      (extra_set student_concepts reference_concepts) ∧
    Disjoint (missing_set student_concepts reference_concepts)
      (extra_set student_concepts reference_concepts) ∧
    (correct_set student_concepts reference_concepts ∪
      missing_set student_concepts reference_concepts ∪
      extra_set student_concepts reference_concepts
      = student_concepts.toFinset ∪ reference_concepts.toFinset) ∧
    (compare_concepts enum model_sim student_concepts reference_concepts
      student_text summary).correct_concepts.length ≤ 10 ∧
    (compare_concepts enum model_sim student_concepts reference_concepts
      student_text summary).missing_concepts.length ≤ 10 ∧
    (compare_concepts enum model_sim student_concepts reference_concepts
      student_text summary).extra_concepts.length ≤ 10 ∧
    (∀ t ∈ (compare_concepts enum model_sim student_concepts reference_concepts
      student_text summary).correct_concepts,
        t ∈ correct_set student_concepts reference_concepts) ∧
    (∀ t ∈ (compare_concepts enum model_sim student_concepts reference_concepts
      student_text summary).missing_concepts,
        t ∈ missing_set student_concepts reference_concepts) ∧
    (∀ t ∈ (compare_concepts enum model_sim student_concepts reference_concepts
      student_text summary).extra_concepts,
        t ∈ extra_set student_concepts reference_concepts) := by
  refine ⟨?_, ?_, ?_, ?_, ?_, ?_, ?_, ?_, ?_, ?_⟩
  · rw [Finset.disjoint_left]
    intro a ha hb
    simp only [correct_set, missing_set, Finset.mem_inter, Finset.mem_sdiff] at ha hb
    exact hb.2 ha.1
  · rw [Finset.disjoint_left]
    intro a ha hb
    simp only [correct_set, extra_set, Finset.mem_inter, Finset.mem_sdiff] at ha hb
    exact hb.2 ha.2
  · rw [Finset.disjoint_left]
    intro a ha hb
    simp only [missing_set, extra_set, Finset.mem_sdiff] at ha hb
    exact ha.2 hb.1
  · ext a
    simp only [correct_set, missing_set, extra_set, Finset.mem_union, Finset.mem_inter,
      Finset.mem_sdiff]
    tauto
  · dsimp only [compare_concepts]
    exact List.length_take_le _ _
  · dsimp only [compare_concepts]
    exact List.length_take_le _ _
  · dsimp only [compare_concepts]
    exact List.length_take_le _ _
  · intro t ht
    dsimp only [compare_concepts] at ht
    have h1 := List.mem_of_mem_take ht
    rw [← (henum (correct_set student_concepts reference_concepts)).1]
    exact List.mem_toFinset.mpr h1
  · intro t ht
    dsimp only [compare_concepts] at ht
    have h1 := List.mem_of_mem_take ht
    rw [← (henum (missing_set student_concepts reference_concepts)).1]
    exact List.mem_toFinset.mpr h1
  · intro t ht
    dsimp only [compare_concepts] at ht
    have h1 := List.mem_of_mem_take ht
    rw [← (henum (extra_set student_concepts reference_concepts)).1]
    exact List.mem_toFinset.mpr h1

/-- C4 witness: with the sorting enumeration and concrete concept lists, the
displayed correct-concept list respects the 10-item cap. -/
theorem concept_comparison_spec_witness :
    (compare_concepts lex_enum (fun _ _ => 0) student_terms reference_terms
      ("x").toList ("y").toList).correct_concepts.length ≤ 10 :=
  (concept_comparison_spec lex_enum valid_lex_enum (fun _ _ => 0) student_terms
    reference_terms ("x").toList ("y").toList).2.2.2.2.1

/-- C4 counterexample: the displayed lists are not guaranteed to be in the
frequency order of key-term extraction.  `bad_enum` is an admissible
enumeration of the underlying sets (Python leaves the `list(set)` order
unspecified), yet on the student list [alpha, beta] and reference list
[beta, alpha] it yields the correct-concept list [beta, alpha], which violates
the student frequency ranking.  Hence the claimed ordering property is false
of the code. -/
theorem concept_comparison_order_counterexample :
    ¬ (∀ (enum : Finset Text → List Text), ValidEnum enum →
        ∀ (model_sim : Text → Text → ℚ) (sc rc : List Text) (st sm : Text),
          (compare_concepts enum model_sim sc rc st sm).correct_concepts.Pairwise
            (fun a b => sc.indexOf a < sc.indexOf b)) := by
  intro hclaim
  have hvalid : ValidEnum bad_enum := by
    intro s
    unfold bad_enum
    split_ifs with h
    · subst h
      exact ⟨by decide, by decide⟩
    · exact ⟨Finset.sort_toFinset _ s, Finset.sort_nodup _ s⟩
  have hres := hclaim bad_enum hvalid (fun _ _ => 0) student_terms reference_terms [] []
  have heval : (compare_concepts bad_enum (fun _ _ => 0) student_terms reference_terms
      [] []).correct_concepts = [("beta").toList, ("alpha").toList] := by
    with_unfolding_all rfl
  rw [heval] at hres
  have hcontra := (List.pairwise_cons.mp hres).1 ("alpha").toList (by decide)
  revert hcontra
  decide

/-- Two members of a list with the same first-occurrence position are equal. -/
theorem first_idx_inj {l : List Text} {a b : Text} (ha : a ∈ l) (hb : b ∈ l)
    (h : first_idx l a = first_idx l b) : a = b := by
  induction l with
  | nil => cases ha
  | cons c cs ih =>
    unfold first_idx at h ih
    rw [List.findIdx_cons, List.findIdx_cons, Bool.cond_decide, Bool.cond_decide] at h
    by_cases hca : c = a
    · by_cases hcb : c = b
      · rw [← hca, ← hcb]
      · rw [if_pos hca, if_neg hcb] at h
        exact absurd h.symm (Nat.succ_ne_zero _)
    · by_cases hcb : c = b
      · rw [if_neg hca, if_pos hcb] at h
        exact absurd h (Nat.succ_ne_zero _)
      · rw [if_neg hca, if_neg hcb] at h
        replace h := Nat.succ_injective h
        have ha' : a ∈ cs := by
          rcases List.mem_cons.mp ha with h1 | h1
          · exact absurd h1.symm hca
          · exact h1
        have hb' : b ∈ cs := by
          rcases List.mem_cons.mp hb with h1 | h1
          · exact absurd h1.symm hcb
          · exact h1
        exact ih ha' hb' h

/-- Every element of `counter_items` records the frequency and the
first-occurrence position of its term. -/
theorem counter_items_mem {l : List Text} {x : Text × ℕ × ℕ}
    (hx : x ∈ counter_items l) :
    x.2.1 = l.count x.1 ∧ x.2.2 = first_idx l x.1 ∧ x.1 ∈ l := by
  unfold counter_items at hx
  rcases List.mem_map.mp hx with ⟨t, ht, rfl⟩
  exact ⟨rfl, rfl, List.mem_dedup.mp ht⟩

/-- Distinct counter items carry distinct terms. -/
theorem counter_items_fst_ne (l : List Text) :
    (counter_items l).Pairwise (fun x y => x.1 ≠ y.1) := by
  unfold counter_items
  rw [List.pairwise_map]
  exact List.nodup_dedup l

/-- C8: key-term extraction returns at most 20 terms, ordered by strictly
descending frequency in the combined term list, with ties between equally
frequent terms broken by the position of their first occurrence. -/
theorem extract_key_terms_ranked (l : List Text) :
    (extract_key_terms l).length ≤ 20 ∧
    (extract_key_terms l).Pairwise (fun a b =>
      l.count b < l.count a ∨ (l.count a = l.count b ∧ first_idx l a < first_idx l b)) := by
  constructor
  · unfold extract_key_terms
    rw [List.length_map]
    exact List.length_take_le _ _
  · unfold extract_key_terms
    set items := (counter_items l).filter (fun it => decide (2 < it.1.length)) with hitems
    have hsorted : List.Pairwise rank_le (items.insertionSort rank_le) :=
      List.sorted_insertionSort rank_le items
    have hperm : List.Perm (items.insertionSort rank_le) items :=
      List.perm_insertionSort rank_le items
    have hne_items : items.Pairwise (fun x y => x.1 ≠ y.1) :=
      (counter_items_fst_ne l).sublist (List.filter_sublist _)
    have hne_sorted : (items.insertionSort rank_le).Pairwise (fun x y => x.1 ≠ y.1) :=
      (hperm.pairwise_iff (fun h => Ne.symm h)).mpr hne_items
    have hboth := hsorted.and hne_sorted
    have htaken : ((items.insertionSort rank_le).take 20).Pairwise
        (fun x y => rank_le x y ∧ x.1 ≠ y.1) :=
      hboth.sublist (List.take_sublist _ _)
    rw [List.pairwise_map]
    refine htaken.imp_of_mem ?_
    intro x y hx hy hr
    have hx' : x ∈ counter_items l := by
      have h1 : x ∈ items.insertionSort rank_le := List.mem_of_mem_take hx
      exact List.mem_of_mem_filter (hperm.mem_iff.mp h1)
    have hy' : y ∈ counter_items l := by
      have h1 : y ∈ items.insertionSort rank_le := List.mem_of_mem_take hy
      exact List.mem_of_mem_filter (hperm.mem_iff.mp h1)
    obtain ⟨hc1, hi1, hm1⟩ := counter_items_mem hx'
    obtain ⟨hc2, hi2, hm2⟩ := counter_items_mem hy'
    obtain ⟨hrank, hfst⟩ := hr
    unfold rank_le at hrank
    rcases hrank with hlt | ⟨heq, hle⟩
    · left
      rw [hc1, hc2] at hlt
      exact hlt
    · right
      rw [hc1, hc2] at heq
      rw [hi1, hi2] at hle
      refine ⟨heq, lt_of_le_of_ne hle ?_⟩
      intro hcontra
      exact hfst (first_idx_inj hm1 hm2 hcontra)


end EMC
